import Mathlib

/-!
Verification of the speech-output (TTS) core of the Website Accessibility
Widget against its natural-language specification.

The definitions below are a shallow embedding of `src/tts.js` and of the
TTS functions of `src/accessibility-plugin.js`:
  - JS strings are modelled as `String` / `List Char` (BMP code points);
  - JS numbers (rate/pitch/volume, intervals) are modelled as `ℚ`;
  - the mutable `TTSManager` object is modelled as an explicit state
    record `TTSState`, methods become state-passing functions;
  - browser backend effects (`synthesis.cancel()`, `synthesis.speak(u)`,
    the `onLanguageChange` callback) are modelled as an emitted event list;
  - the result of `speechSynthesis.getVoices()` is passed in explicitly
    as a parameter wherever the code calls it.
-/

/-- A `SpeechSynthesisVoice`: `{name, voiceURI, lang}` as used by the code. -/
structure Voice where
  name : String
  voiceURI : String
  lang : String
deriving Repr, DecidableEq

/-- One entry of the `TTS_LANGUAGES` configuration object in `src/tts.js`. -/
structure LangConfig where
  name : String
  code : String
  voices : List String
  fallback : String
deriving Repr, DecidableEq

/-- The `TTS_LANGUAGES` table of `src/tts.js` (lines 11-54), in insertion
order (which is the `Object.entries` iteration order). -/
def TTS_LANGUAGES : List (String × LangConfig) :=
  [ ("en", ⟨"English", "en-US", ["en-US", "en-GB", "en-AU", "en-CA"], "en-US"⟩),
    ("es", ⟨"Español", "es-ES", ["es-ES", "es-MX", "es-AR", "es-CO"], "es-ES"⟩),
    ("de", ⟨"Deutsch", "de-DE", ["de-DE", "de-AT", "de-CH"], "de-DE"⟩),
    ("fr", ⟨"Français", "fr-FR", ["fr-FR", "fr-CA", "fr-BE", "fr-CH"], "fr-FR"⟩),
    ("zh", ⟨"中文 (Mandarin)", "zh-CN", ["zh-CN", "zh-TW", "zh-HK"], "zh-CN"⟩),
    ("ko", ⟨"한국어", "ko-KR", ["ko-KR"], "ko-KR"⟩),
    ("no", ⟨"Norsk", "no-NO", ["no-NO", "nb-NO", "nn-NO"], "no-NO"⟩) ]

/-- `TTS_LANGUAGES[language]`: keyed lookup in the configuration table. -/
def lookupLang (language : String) : Option LangConfig :=
  (TTS_LANGUAGES.find? (fun p => p.1 = language)).map (fun p => p.2)

/-! ## JS string and regex primitives used by the detection code -/

/-- JS whitespace as recognised by `String.prototype.trim`. -/
def isJSWhitespace (c : Char) : Bool :=
  let n := c.toNat
  decide (n = 0x9 ∨ n = 0xA ∨ n = 0xB ∨ n = 0xC ∨ n = 0xD ∨ n = 0x20 ∨
    n = 0xA0 ∨ n = 0x1680 ∨ (0x2000 ≤ n ∧ n ≤ 0x200A) ∨ n = 0x2028 ∨
    n = 0x2029 ∨ n = 0x202F ∨ n = 0x205F ∨ n = 0x3000 ∨ n = 0xFEFF)

/-- The test `!text || text.trim() === ''`: every char is JS whitespace
(this is equivalent to `trim` yielding the empty string, and an empty
string is itself falsy). -/
def jsTrimEmpty (s : String) : Bool :=
  s.toList.all isJSWhitespace

/-- A char of the regex class `[一-鿿]` (CJK Unified Ideographs),
the `zh` script-range pattern of `LANGUAGE_PATTERNS`. -/
def isCJKChar (c : Char) : Bool :=
  decide (0x4e00 ≤ c.toNat ∧ c.toNat ≤ 0x9fff)

/-- A char of the regex class `[가-힣]` (Hangul syllables),
the `ko` script-range pattern of `LANGUAGE_PATTERNS`. -/
def isHangulChar (c : Char) : Bool :=
  decide (0xac00 ≤ c.toNat ∧ c.toNat ≤ 0xd7a3)

/-- A JS regex word char (`\w`, hence also the `\b` classification):
ASCII letters, digits and underscore.  Note that accented letters such as
`ü` and `å` are NOT word chars for `\b` in a non-unicode JS regex. -/
def isWordChar (c : Char) : Bool :=
  decide (('a' ≤ c ∧ c ≤ 'z') ∨ ('A' ≤ c ∧ c ≤ 'Z') ∨
          ('0' ≤ c ∧ c ≤ '9') ∨ c = '_')

/-- Case folding used for the `/i` flag, covering ASCII plus the two
non-ASCII letters (`ü`, `å`) that occur in the keyword patterns. -/
def charLower (c : Char) : Char :=
  if 'A' ≤ c ∧ c ≤ 'Z' then Char.ofNat (c.toNat + 32)
  else if c = 'Ü' then 'ü'
  else if c = 'Å' then 'å'
  else c

/-- Case-insensitive char match of a pattern char against a text char. -/
def charMatches (p c : Char) : Bool :=
  charLower c = charLower p

/-- A `\b` assertion between a position of word-status `a` and one of
word-status `b` (out-of-bounds counts as non-word). -/
def jsBoundary (a b : Bool) : Bool :=
  a != b

/-- Match the literal word `w` case-insensitively at the front of `text`;
on success return the remaining text. -/
def litMatch : List Char → List Char → Option (List Char)
  | [], rest => some rest
  | _ :: _, [] => none
  | p :: ps, c :: cs => if charMatches p c then litMatch ps cs else none

/-- Try one alternative `w` of a `\b(w1|w2|...)\b` pattern at the current
position, `prevW` being the word-status of the preceding char.  Both `\b`
assertions are checked.  (Since `charMatches` only identifies case
variants, the word-status of a matched text char equals that of the
pattern char, so the boundaries are computed from the pattern chars.) -/
def tryAlt (prevW : Bool) (text : List Char) (w : List Char) : Option (List Char) :=
  match w with
  | [] => none
  | c0 :: _ =>
    if jsBoundary prevW (isWordChar c0) then
      match litMatch w text with
      | some rest =>
        if jsBoundary (isWordChar (w.getLastD ' '))
            (match rest with | [] => false | c :: _ => isWordChar c) then
          some rest
        else none
      | none => none
    else none

/-- Try the alternatives in pattern order (JS alternation is ordered and
backtracks to the next alternative when the trailing `\b` fails); on
success return the word-status of the last matched char and the rest. -/
def tryAlts (alts : List (List Char)) (prevW : Bool) (text : List Char) :
    Option (Bool × List Char) :=
  alts.findSome? (fun w =>
    (tryAlt prevW text w).map (fun rest => (isWordChar (w.getLastD ' '), rest)))

/-- `pattern.test(text)` for a `\b(w1|...|wn)\b` pattern: scan positions
left to right, at each position trying the alternatives in order. -/
def scanTest (alts : List (List Char)) : Bool → List Char → Bool
  | _, [] => false
  | prevW, c :: cs =>
    match tryAlts alts prevW (c :: cs) with
    | some _ => true
    | none => scanTest alts (isWordChar c) cs

/-- Number of matches a global (`/g`) scan of a `\b(w1|...|wn)\b` pattern
finds: leftmost matches, scanning resumes after each match.  Fuel-driven;
every step consumes at least one char, so `text.length` fuel suffices. -/
def scanCount (alts : List (List Char)) : Nat → Bool → List Char → Nat
  | 0, _, _ => 0
  | _ + 1, _, [] => 0
  | fuel + 1, prevW, c :: cs =>
    match tryAlts alts prevW (c :: cs) with
    | some (lw, rest) => 1 + scanCount alts fuel lw rest
    | none => scanCount alts fuel (isWordChar c) cs

/-- The alternative word lists of the `en` keyword pattern. -/
def enWords : List String :=
  ["the", "and", "or", "but", "in", "on", "at", "to", "for", "of", "with", "by"]

/-- The alternative word lists of the `es` keyword pattern. -/
def esWords : List String :=
  ["el", "la", "los", "las", "y", "o", "pero", "en", "de", "con", "por", "para"]

/-- The alternative word lists of the `de` keyword pattern. -/
def deWords : List String :=
  ["der", "die", "das", "und", "oder", "aber", "in", "von", "mit", "für", "zu"]

/-- The alternative word lists of the `fr` keyword pattern. -/
def frWords : List String :=
  ["le", "la", "les", "et", "ou", "mais", "dans", "de", "avec", "pour", "par"]

/-- The alternative word lists of the `no` keyword pattern. -/
def noWords : List String :=
  ["og", "eller", "men", "i", "av", "med", "for", "til", "på"]

/-- The keyword-frequency patterns of `LANGUAGE_PATTERNS`, in the
`Object.entries` iteration order with `zh`/`ko` (the script-range
patterns, skipped by the loop) removed. -/
def keywordPatterns : List (String × List String) :=
  [("en", enWords), ("es", esWords), ("de", deWords), ("fr", frWords), ("no", noWords)]

/-- `LANGUAGE_PATTERNS[lang].test(text)` for a keyword pattern. -/
def regexTestW (ws : List String) (text : List Char) : Bool :=
  scanTest (ws.map String.toList) false text

/-- How many matches `text.match(pattern)` with a GLOBAL flag would find. -/
def countWordMatches (ws : List String) (text : List Char) : Nat :=
  scanCount (ws.map String.toList) text.length false text

/-- `TTSManager.detectLanguage` (`src/tts.js` lines 127-155).  Note that
the keyword patterns carry no `g` flag and have exactly one capture
group, so `(text.match(pattern) || []).length` is `2` whenever the
pattern matches anywhere and `0` otherwise. -/
def detectLanguage (text : List Char) : String :=
  if text.all isJSWhitespace then "en"
  else if text.any isCJKChar then "zh"
  else if text.any isHangulChar then "ko"
  else
    (keywordPatterns.foldl
      (fun (acc : Nat × String) p =>
        let matchCount := if regexTestW p.2 text then 2 else 0
        if matchCount > acc.1 then (matchCount, p.1) else acc)
      (0, "en")).2

/-- Modelled from the spec: the detector §4.1 describes for the
keyword phase — "evaluate every keyword-frequency pattern against the
full text, counting regex matches; the language with the strictly
greatest count wins.  Ties (including the zero-match case) resolve to
the system default language" — with the script-range phase as in the
code.  Used to compare the code's behaviour with the claimed one. -/
def detectLanguageSpec (text : List Char) : String :=
  if text.all isJSWhitespace then "en"
  else if text.any isCJKChar then "zh"
  else if text.any isHangulChar then "ko"
  else
    let cs := keywordPatterns.map (fun p => (p.1, countWordMatches p.2 text))
    let mx := cs.foldl (fun a p => max a p.2) 0
    if mx = 0 then "en"
    else
      match cs.filter (fun p => p.2 = mx) with
      | [w] => w.1
      | _ => "en"

/-! ## Voice resolution (`selectBestVoice`, `setVoice`) -/

/-- `s.startsWith(pre)`, computed on the char-list model. -/
def jsStartsWith (s pre : String) : Bool :=
  pre.toList.isPrefixOf s.toList

/-- `s.split('-')[0]`: the part of `s` before the first dash. -/
def splitDash0 (s : String) : String :=
  String.mk (s.toList.takeWhile (fun c => c ≠ '-'))

/-- The predicate of the first loop of `selectBestVoice`
(`src/tts.js` lines 168-173):
`v.lang === voiceCode || v.lang.startsWith(voiceCode.split('-')[0])`. -/
def variantMatches (v : Voice) (voiceCode : String) : Bool :=
  v.lang = voiceCode || jsStartsWith v.lang (splitDash0 voiceCode)

/-- The cascade body of `TTSManager.selectBestVoice`
(`src/tts.js` lines 164-186), given a non-empty catalog and a valid
language configuration. -/
def selectBestVoiceFrom (avail : List Voice) (cfg : LangConfig) : Option Voice :=
  let loop1 := cfg.voices.findSome? (fun vc => avail.find? (fun v => variantMatches v vc))
  let loop2 :=
    match loop1 with
    | some v => some v
    | none => avail.find? (fun v => jsStartsWith v.lang (splitDash0 cfg.code))
  match loop2 with
  | some v => some v
  | none => avail.head?

/-- `TTSManager.selectBestVoice` (`src/tts.js` lines 157-190) as a pure
function of the voice catalog and the requested language. -/
def selectBestVoice (avail : List Voice) (language : String) : Option Voice :=
  if avail.isEmpty then none
  else
    match lookupLang language with
    | none => none
    | some cfg => selectBestVoiceFrom avail cfg

/-- `hay.includes(needle)`: whether `needle` occurs as a contiguous
substring of `hay` (`String.prototype.includes`, on char lists). -/
def jsIncludes (needle : List Char) : List Char → Bool
  | [] => needle.isPrefixOf []
  | c :: cs => needle.isPrefixOf (c :: cs) || jsIncludes needle cs

/-- The predicate of the `find` in `TTSManager.setVoice`
(`src/tts.js` lines 211-215):
`v.name === n || v.voiceURI === n || v.name.toLowerCase().includes(n.toLowerCase())`. -/
def voiceMatchesName (v : Voice) (voiceName : String) : Bool :=
  v.name = voiceName || v.voiceURI = voiceName ||
    jsIncludes (voiceName.toList.map charLower) (v.name.toList.map charLower)

/-- The `find` of `TTSManager.setVoice` (`src/tts.js` lines 208-226):
the voice an explicit voice name resolves to, if any. -/
def findVoiceByName (avail : List Voice) (voiceName : String) : Option Voice :=
  avail.find? (fun v => voiceMatchesName v voiceName)

/-! ## The `TTSManager` state machine -/

/-- The utterance record built by `TTSManager.speak`
(`src/tts.js` lines 265-288): a `SpeechSynthesisUtterance` with the
fields the code assigns. -/
structure Utterance where
  text : String
  lang : String
  rate : ℚ
  pitch : ℚ
  volume : ℚ
  voice : Option Voice
deriving Repr, DecidableEq

instance : DecidableEq (Except String Utterance) := fun a b =>
  match a, b with
  | Except.ok x, Except.ok y =>
    if h : x = y then isTrue (by rw [h]) else isFalse (by simp [h])
  | Except.error x, Except.error y =>
    if h : x = y then isTrue (by rw [h]) else isFalse (by simp [h])
  | Except.ok _, Except.error _ => isFalse (by simp)
  | Except.error _, Except.ok _ => isFalse (by simp)

/-- Backend side effects and callbacks the manager triggers. -/
inductive Event where
  | cancel
  | languageChange (code : String)
  | speakCall (u : Utterance)
deriving Repr, DecidableEq

/-- The mutable fields of a `TTSManager` instance that the TTS core
reads or writes (`src/tts.js` lines 69-83). -/
structure TTSState where
  synthesisAvailable : Bool
  availableVoices : List Voice
  currentLanguage : String
  currentVoice : Option Voice
  isSpeakingM : Bool
  currentUtterance : Option Utterance
  rate : ℚ
  pitch : ℚ
  volume : ℚ
deriving Repr, DecidableEq

/-- `TTSManager.selectBestVoice` as a state transition: it assigns
`this.currentVoice` only when it passes the guards (synthesis present,
non-empty catalog, known language). -/
def selectBestVoiceSt (st : TTSState) (language : Option String) :
    TTSState × Option Voice :=
  if st.synthesisAvailable = false ∨ st.availableVoices.isEmpty then (st, none)
  else
    let lang := language.getD st.currentLanguage
    match lookupLang lang with
    | none => (st, none)
    | some cfg =>
      let bv := selectBestVoiceFrom st.availableVoices cfg
      ({st with currentVoice := bv}, bv)

/-- `TTSManager.loadVoices` (`src/tts.js` lines 112-125); `enumerated` is
the list `this.synthesis.getVoices()` returned for this call. -/
def loadVoices (st : TTSState) (enumerated : List Voice) : TTSState :=
  if st.synthesisAvailable then
    if enumerated.isEmpty then st
    else (selectBestVoiceSt {st with availableVoices := enumerated} none).1
  else st

/-- `TTSManager.setLanguage` (`src/tts.js` lines 192-206).  Returns the
new state, the boolean result, and the emitted events (reaching the
`onLanguageChange` callback site is modelled as a `languageChange`
event). -/
def setLanguage (st : TTSState) (language : String) :
    TTSState × Bool × List Event :=
  match lookupLang language with
  | none => (st, false, [])
  | some _ =>
    let st1 := {st with currentLanguage := language}
    ((selectBestVoiceSt st1 (some language)).1, true, [Event.languageChange language])

/-- `TTSManager.setVoice` (`src/tts.js` lines 208-226). -/
def setVoice (st : TTSState) (voiceName : String) : TTSState × Bool :=
  match findVoiceByName st.availableVoices voiceName with
  | some v => ({st with currentVoice := some v}, true)
  | none => (st, false)

/-- `TTSManager.setRate` (`src/tts.js` lines 228-230):
`Math.max(0.5, Math.min(2.0, rate))`.  The literal `0.5` is written
`mkRat 1 2` (the same rational) to keep the definition
kernel-evaluable. -/
def setRate (st : TTSState) (r : ℚ) : TTSState :=
  {st with rate := max (mkRat 1 2) (min 2 r)}

/-- `TTSManager.setPitch` (`src/tts.js` lines 232-234). -/
def setPitch (st : TTSState) (p : ℚ) : TTSState :=
  {st with pitch := max 0 (min 2 p)}

/-- `TTSManager.setVolume` (`src/tts.js` lines 236-238). -/
def setVolume (st : TTSState) (v : ℚ) : TTSState :=
  {st with volume := max 0 (min 1 v)}

/-- `TTSManager.stop` (`src/tts.js` lines 310-316): cancels the backend
only when `this.synthesis && this.isSpeaking`. -/
def stop (st : TTSState) : TTSState × List Event :=
  if st.synthesisAvailable && st.isSpeakingM then
    ({st with isSpeakingM := false, currentUtterance := none}, [Event.cancel])
  else (st, [])

/-- Per-call options of `speak`; a field left `none` models an absent
property of the `options` object. -/
structure SpeakOptions where
  rate : Option ℚ
  pitch : Option ℚ
  volume : Option ℚ
deriving Repr, DecidableEq

/-- `x || d` for an optional JS number `x`: an absent or zero (falsy)
value falls back to `d`. -/
def jsOr (o : Option ℚ) (d : ℚ) : ℚ :=
  match o with
  | some v => if v = 0 then d else v
  | none => d

/-- The language `speak` uses: `language || this.detectLanguage(text)`
(`src/tts.js` line 257). -/
def effectiveLang (text : String) (language : Option String) : String :=
  match language with
  | some l => l
  | none => detectLanguage text.toList

/-- `TTSManager.speak` (`src/tts.js` lines 240-308), up to and including
the synchronous `this.synthesis.speak(utterance)` call inside the
returned promise's executor.  `enumerated` is what `getVoices()` would
return should `loadVoices` be called (line 273).  The result is the new
state, the emitted events in order, and either the constructed utterance
(promise pending) or the rejection error.  A `language` argument that is
not a key of `TTS_LANGUAGES` makes line 266
(`TTS_LANGUAGES[detectedLang].code`) throw; that is the `TypeError`
error branch. -/
def speak (st : TTSState) (text : String) (language : Option String)
    (opts : SpeakOptions) (enumerated : List Voice) :
    TTSState × List Event × Except String Utterance :=
  if st.synthesisAvailable = false then
    (st, [], Except.error "Speech Synthesis not available")
  else if jsTrimEmpty text then
    (st, [], Except.error "Invalid text")
  else
    let s1 := stop st
    let st1 := s1.1
    let detectedLang := effectiveLang text language
    let s2 :=
      if detectedLang ≠ st1.currentLanguage then
        let r := setLanguage st1 detectedLang
        (r.1, r.2.2)
      else (st1, ([] : List Event))
    let st2 := s2.1
    match lookupLang detectedLang with
    | none => (st2, s1.2 ++ s2.2, Except.error "TypeError")
    | some cfg =>
      let utt0 : Utterance :=
        { text := text, lang := cfg.code,
          rate := jsOr opts.rate st2.rate,
          pitch := jsOr opts.pitch st2.pitch,
          volume := jsOr opts.volume st2.volume,
          voice := none }
      let st3 := if st2.availableVoices.isEmpty then loadVoices st2 enumerated else st2
      let r4 : TTSState × Utterance :=
        match st3.currentVoice with
        | some v => (st3, {utt0 with voice := some v})
        | none =>
          let sb := selectBestVoiceSt st3 (some detectedLang)
          match sb.2 with
          | some v => (sb.1, {utt0 with voice := some v})
          | none => (sb.1, utt0)
      let st5 := {r4.1 with currentUtterance := some r4.2, isSpeakingM := true}
      (st5, s1.2 ++ s2.2 ++ [Event.speakCall r4.2], Except.ok r4.2)

/-! ## The plugin side (`src/accessibility-plugin.js`) -/

/-- The TTS-related module-level variables of the plugin
(`src/accessibility-plugin.js` lines 91-98).  `synthAvailable` models
the plugin's own `speechSynthesis` handle; the DOM word-highlight state
(`ttsHighlightElements`, `ttsWords`, `ttsCurrentWordIndex`) is modelled
abstractly. -/
structure PluginState where
  synthAvailable : Bool
  availableVoicesP : List Voice
  highlights : List String
  words : List String
  wordIndex : Nat
  isSpeakingP : Bool
deriving Repr, DecidableEq

/-- `clearTTSHighlights` (`src/accessibility-plugin.js` lines 1009-1022). -/
def clearTTSHighlights (p : PluginState) : PluginState :=
  {p with highlights := [], words := [], wordIndex := 0}

/-- `stopSpeaking` (`src/accessibility-plugin.js` lines 1024-1041):
prefers the TTS manager (`ttsManager.isAvailable()`), else falls back to
the plugin's direct handle. -/
def stopSpeaking (p : PluginState) (t : TTSState) :
    PluginState × TTSState × List Event :=
  if t.synthesisAvailable then
    let r := stop t
    (clearTTSHighlights {p with isSpeakingP := false}, r.1, r.2)
  else if p.synthAvailable && p.isSpeakingP then
    (clearTTSHighlights {p with isSpeakingP := false}, t, [Event.cancel])
  else (p, t, [])

/-- The plugin's `loadVoices` (`src/accessibility-plugin.js` lines
207-234): direct enumeration with a delayed retry when the first result
is empty, else (no direct handle) a copy of the TTS manager's cache
after asking it to reload.  `enumerated` and `retryEnumerated` are the
two `getVoices()` results. -/
def pluginLoadVoices (p : PluginState) (t : TTSState)
    (enumerated retryEnumerated : List Voice) : PluginState × TTSState :=
  if p.synthAvailable then
    if enumerated.isEmpty then
      if retryEnumerated.isEmpty then (p, t)
      else ({p with availableVoicesP := retryEnumerated}, t)
    else ({p with availableVoicesP := enumerated}, t)
  else if t.synthesisAvailable then
    let t1 := loadVoices t enumerated
    ({p with availableVoicesP := t1.availableVoices}, t1)
  else (p, t)

/-- The per-word highlight interval computed by `startTTSHighlighting`
(`src/accessibility-plugin.js` lines 963-972), in milliseconds:
`Math.max(50, 1000 / ((180 / 60) * rate))`. -/
def highlightIntervalMs (rate : ℚ) : ℚ :=
  let averageWordsPerMinute : ℚ := 180
  let wordsPerSecond := (averageWordsPerMinute / 60) * rate
  max 50 (1000 / wordsPerSecond)

/-! ## Concrete fixtures -/

/-- A voice whose locale only shares the 2-letter prefix of the `en`
profile (its tag is in none of the profile's variant lists). -/
def voiceZA : Voice := ⟨"Alice", "va", "en-ZA"⟩

/-- A voice that is an exact match for the second variant (`en-GB`) of
the `en` profile. -/
def voiceGB : Voice := ⟨"Bob", "vb", "en-GB"⟩

/-- A voice whose locale matches no configured profile at all. -/
def voiceXX : Voice := ⟨"Xeno", "vx", "xx-XX"⟩

/-- An idle manager state: synthesis present, empty catalog, defaults. -/
def stIdle : TTSState := ⟨true, [], "en", none, false, none, 1, 1, 1⟩

/-- A busy manager state: an utterance is in flight. -/
def stBusy : TTSState :=
  ⟨true, [], "en", none, true, some ⟨"old", "en-US", 1, 1, 1, none⟩, 1, 1, 1⟩

/-! ## Helper lemmas (shared) -/

lemma cjk_not_ws {c : Char} (h : isCJKChar c = true) :
    isJSWhitespace c = false := by
  simp only [isCJKChar, decide_eq_true_eq] at h
  simp only [isJSWhitespace, decide_eq_false_iff_not]
  omega

lemma hangul_not_ws {c : Char} (h : isHangulChar c = true) :
    isJSWhitespace c = false := by
  simp only [isHangulChar, decide_eq_true_eq] at h
  simp only [isJSWhitespace, decide_eq_false_iff_not]
  omega

lemma selectBestVoiceSt_fields (st : TTSState) (language : Option String) :
    (selectBestVoiceSt st language).1.rate = st.rate ∧
    (selectBestVoiceSt st language).1.pitch = st.pitch ∧
    (selectBestVoiceSt st language).1.volume = st.volume ∧
    (selectBestVoiceSt st language).1.currentLanguage = st.currentLanguage ∧
    (selectBestVoiceSt st language).1.availableVoices = st.availableVoices ∧
    (selectBestVoiceSt st language).1.synthesisAvailable = st.synthesisAvailable := by
  unfold selectBestVoiceSt
  split
  · exact ⟨rfl, rfl, rfl, rfl, rfl, rfl⟩
  · cases h : lookupLang (language.getD st.currentLanguage) <;> simp [h]

lemma stop_fields (st : TTSState) :
    (stop st).1.rate = st.rate ∧ (stop st).1.pitch = st.pitch ∧
    (stop st).1.volume = st.volume ∧
    (stop st).1.currentLanguage = st.currentLanguage ∧
    (stop st).1.availableVoices = st.availableVoices ∧
    (stop st).1.synthesisAvailable = st.synthesisAvailable ∧
    (stop st).1.currentVoice = st.currentVoice := by
  unfold stop
  split <;> exact ⟨rfl, rfl, rfl, rfl, rfl, rfl, rfl⟩

lemma setLanguage_fields (st : TTSState) (language : String) :
    (setLanguage st language).1.rate = st.rate ∧
    (setLanguage st language).1.pitch = st.pitch ∧
    (setLanguage st language).1.volume = st.volume ∧
    (setLanguage st language).1.availableVoices = st.availableVoices ∧
    (setLanguage st language).1.synthesisAvailable = st.synthesisAvailable := by
  unfold setLanguage
  split
  · exact ⟨rfl, rfl, rfl, rfl, rfl⟩
  · refine ⟨?_, ?_, ?_, ?_, ?_⟩ <;>
      simp [selectBestVoiceSt_fields]

lemma loadVoices_fields (st : TTSState) (enumerated : List Voice) :
    (loadVoices st enumerated).rate = st.rate ∧
    (loadVoices st enumerated).pitch = st.pitch ∧
    (loadVoices st enumerated).volume = st.volume := by
  unfold loadVoices
  split
  · split
    · exact ⟨rfl, rfl, rfl⟩
    · refine ⟨?_, ?_, ?_⟩ <;> simp [selectBestVoiceSt_fields]
  · exact ⟨rfl, rfl, rfl⟩

/-! ## Claim theorems -/

/-- C1: the claim says the keyword phase of `detectLanguage` counts the
regex matches of every keyword pattern over the full text and returns
the language with the strictly greatest count (ties and the zero case
resolving to `"en"`).  The code's patterns carry no global flag, so
`(text.match(pattern) || []).length` is `2` for every matching language
and the first matching language in iteration order wins instead: on
`"pero mais mais"` the code answers `"es"` although `"fr"` has strictly
the most matches (2 versus 1), which the counting detector
`detectLanguageSpec` returns. -/
theorem detect_keyword_count_divergence :
    detectLanguage "pero mais mais".toList = "es" ∧
    detectLanguageSpec "pero mais mais".toList = "fr" ∧
    countWordMatches frWords "pero mais mais".toList = 2 ∧
    countWordMatches esWords "pero mais mais".toList = 1 ∧
    countWordMatches enWords "pero mais mais".toList = 0 ∧
    countWordMatches deWords "pero mais mais".toList = 0 ∧
    countWordMatches noWords "pero mais mais".toList = 0 := by
  exact ⟨by decide, by decide, by decide, by decide, by decide, by decide, by decide⟩

/-- C2: the claim says a prefix-only match is never chosen while a later
variant of the profile has an exact-match voice available.  The code's
first loop accepts `v.lang === voiceCode || v.lang.startsWith(prefix)`,
so with snapshot `[en-ZA, en-GB]` and language `"en"` it returns the
`en-ZA` voice (a prefix-only match found on the first variant `en-US`)
although `en-GB` is an exact match for the profile's second variant. -/
theorem exact_variant_shadowed_by_prefix :
    selectBestVoice [voiceZA, voiceGB] "en" = some voiceZA ∧
    lookupLang "en" =
      some ⟨"English", "en-US", ["en-US", "en-GB", "en-AU", "en-CA"], "en-US"⟩ ∧
    voiceGB.lang = "en-GB" ∧
    voiceZA.lang ∉ ["en-US", "en-GB", "en-AU", "en-CA"] := by
  exact ⟨by decide, by decide, by decide, by decide⟩

/-- C3: any text containing a CJK Unified Ideograph is detected as
`"zh"`, and any text containing a Hangul syllable but no CJK ideograph
is detected as `"ko"` — the script-range tests run in that fixed order
before any keyword pattern is consulted, so embedded keywords of other
languages cannot change the result. -/
theorem script_range_priority (text : List Char) :
    (text.any isCJKChar = true → detectLanguage text = "zh") ∧
    (text.any isCJKChar = false → text.any isHangulChar = true →
      detectLanguage text = "ko") := by
  constructor
  · intro h
    have hws : text.all isJSWhitespace = false := by
      rcases List.any_eq_true.mp h with ⟨c, hc, hcj⟩
      cases hall : text.all isJSWhitespace with
      | false => rfl
      | true =>
        have hcw := List.all_eq_true.mp hall c hc
        rw [cjk_not_ws hcj] at hcw
        cases hcw
    simp [detectLanguage, hws, h]
  · intro h hk
    have hws : text.all isJSWhitespace = false := by
      rcases List.any_eq_true.mp hk with ⟨c, hc, hko⟩
      cases hall : text.all isJSWhitespace with
      | false => rfl
      | true =>
        have hcw := List.all_eq_true.mp hall c hc
        rw [hangul_not_ws hko] at hcw
        cases hcw
    simp [detectLanguage, hws, h, hk]

/-- C3 witness: a concrete CJK text with embedded English keywords. -/
theorem script_range_priority_witness :
    detectLanguage "the 中 and".toList = "zh" :=
  (script_range_priority "the 中 and".toList).1 (by decide)

lemma selectBestVoiceFrom_isSome (a : Voice) (l : List Voice) (cfg : LangConfig) :
    (selectBestVoiceFrom (a :: l) cfg).isSome = true := by
  unfold selectBestVoiceFrom
  cases h1 : cfg.voices.findSome? (fun vc => (a :: l).find? (fun v => variantMatches v vc)) <;>
    cases h2 : (a :: l).find? (fun v => jsStartsWith v.lang (splitDash0 cfg.code)) <;>
      simp [h1, h2]

lemma selectBestVoiceFrom_no_match (avail : List Voice) (cfg : LangConfig)
    (h1 : ∀ v ∈ avail, ∀ vc ∈ cfg.voices, variantMatches v vc = false)
    (h2 : ∀ v ∈ avail, jsStartsWith v.lang (splitDash0 cfg.code) = false) :
    selectBestVoiceFrom avail cfg = avail.head? := by
  have e1 : (cfg.voices.findSome? fun vc => avail.find? fun v => variantMatches v vc) = none := by
    refine List.findSome?_eq_none_iff.mpr (fun vc _ => ?_)
    refine List.find?_eq_none.mpr (fun v hv => ?_)
    intro hm
    rw [h1 v hv vc (by assumption)] at hm
    cases hm
  have e2 : (avail.find? fun v => jsStartsWith v.lang (splitDash0 cfg.code)) = none := by
    refine List.find?_eq_none.mpr (fun v hv => ?_)
    intro hm
    rw [h2 v hv] at hm
    cases hm
  unfold selectBestVoiceFrom
  simp [e1, e2]

/-- C4: the resolver is total on a non-empty catalog: for every
configured language it yields some voice; when no voice matches any of
the profile's variants (exactly or by variant prefix) and none shares
the profile's primary prefix, it yields the first voice of the catalog;
and an explicit voice name that matches nothing makes `setVoice` fail
without touching the state, so resolution falls back as above. -/
theorem resolver_never_none (avail : List Voice) (h : avail ≠ [])
    (language : String) (cfg : LangConfig)
    (hcfg : lookupLang language = some cfg) :
    (selectBestVoice avail language).isSome = true ∧
    ((∀ v ∈ avail, (∀ vc ∈ cfg.voices, variantMatches v vc = false) ∧
        jsStartsWith v.lang (splitDash0 cfg.code) = false) →
      selectBestVoice avail language = avail.head?) ∧
    (∀ voiceName, (∀ v ∈ avail, voiceMatchesName v voiceName = false) →
      findVoiceByName avail voiceName = none ∧
      ∀ st : TTSState, st.availableVoices = avail →
        setVoice st voiceName = (st, false)) := by
  obtain ⟨a, l, rfl⟩ : ∃ a l, avail = a :: l := by
    cases avail with
    | nil => exact absurd rfl h
    | cons a l => exact ⟨a, l, rfl⟩
  refine ⟨?_, ?_, ?_⟩
  · unfold selectBestVoice
    rw [hcfg]
    simp [selectBestVoiceFrom_isSome]
  · intro hno
    unfold selectBestVoice
    rw [hcfg]
    simp only [List.isEmpty_cons, Bool.false_eq_true, if_false]
    exact selectBestVoiceFrom_no_match (a :: l) cfg
      (fun v hv vc hvc => (hno v hv).1 vc hvc) (fun v hv => (hno v hv).2)
  · intro voiceName hn
    have e : findVoiceByName (a :: l) voiceName = none := by
      refine List.find?_eq_none.mpr (fun v hv => ?_)
      intro hm
      rw [hn v hv] at hm
      cases hm
    refine ⟨e, fun st hst => ?_⟩
    unfold setVoice
    rw [hst, e]

/-- C4 witness: a single off-locale voice still resolves for `"fr"`. -/
theorem resolver_never_none_witness :
    (selectBestVoice [voiceXX] "fr").isSome = true :=
  (resolver_never_none [voiceXX] (by decide) "fr"
    ⟨"Français", "fr-FR", ["fr-FR", "fr-CA", "fr-BE", "fr-CH"], "fr-FR"⟩
    (by decide)).1

/-- C6: a voice enumeration yielding an empty list never overwrites a
previously non-empty cached list — in the manager (`loadVoices`) and in
the plugin (`loadVoices` with its delayed retry); the cache changes only
to a non-empty enumeration result.  The hypothesis records the
initialization invariant that the plugin's direct handle is absent only
when the manager's synthesis is absent too. -/
theorem voice_cache_never_emptied (t : TTSState) (p : PluginState)
    (enumerated retryEnumerated : List Voice)
    (hinit : p.synthAvailable = false → t.synthesisAvailable = false) :
    (t.availableVoices ≠ [] → (loadVoices t enumerated).availableVoices ≠ []) ∧
    ((loadVoices t enumerated).availableVoices ≠ t.availableVoices →
      enumerated ≠ [] ∧ (loadVoices t enumerated).availableVoices = enumerated) ∧
    (p.availableVoicesP ≠ [] →
      (pluginLoadVoices p t enumerated retryEnumerated).1.availableVoicesP ≠ []) ∧
    ((pluginLoadVoices p t enumerated retryEnumerated).1.availableVoicesP ≠
        p.availableVoicesP →
      ((pluginLoadVoices p t enumerated retryEnumerated).1.availableVoicesP =
          enumerated ∨
       (pluginLoadVoices p t enumerated retryEnumerated).1.availableVoicesP =
          retryEnumerated) ∧
      (pluginLoadVoices p t enumerated retryEnumerated).1.availableVoicesP ≠ []) := by
  have hlv : (loadVoices t enumerated).availableVoices =
      if t.synthesisAvailable ∧ ¬ enumerated.isEmpty then enumerated
      else t.availableVoices := by
    unfold loadVoices
    by_cases hs : t.synthesisAvailable <;>
      by_cases he : enumerated.isEmpty <;>
        simp [hs, he, selectBestVoiceSt_fields]
  refine ⟨?_, ?_, ?_, ?_⟩
  · intro hne
    rw [hlv]
    split
    · rename_i hc
      intro h0
      rw [h0] at hc
      simp at hc
    · exact hne
  · intro hch
    rw [hlv] at hch ⊢
    split at hch
    · rename_i hc
      rw [if_pos hc]
      refine ⟨?_, rfl⟩
      intro h0
      rw [h0] at hc
      simp at hc
    · exact absurd rfl hch
  · intro hne
    unfold pluginLoadVoices
    by_cases hp : p.synthAvailable
    · by_cases he : enumerated.isEmpty <;>
        by_cases hr : retryEnumerated.isEmpty <;>
          simp_all [List.isEmpty_iff]
    · have ht : t.synthesisAvailable = false := hinit (by simp [hp])
      simp [hp, ht, hne]
  · unfold pluginLoadVoices
    by_cases hp : p.synthAvailable
    · by_cases he : enumerated.isEmpty <;>
        by_cases hr : retryEnumerated.isEmpty <;>
          simp_all [List.isEmpty_iff]
    · have ht : t.synthesisAvailable = false := hinit (by simp [hp])
      simp [hp, ht]

/-- C6 witness: with a non-empty cache, an empty enumeration (and empty
retry) leaves the manager's cache non-empty. -/
theorem voice_cache_never_emptied_witness :
    (loadVoices ⟨true, [voiceGB], "en", none, false, none, 1, 1, 1⟩ []).availableVoices ≠ [] :=
  (voice_cache_never_emptied ⟨true, [voiceGB], "en", none, false, none, 1, 1, 1⟩
    ⟨true, [voiceGB], [], [], 0, false⟩ [] [] (by decide)).1 (by decide)

/-- C7: with synthesis present, `speak` on empty or whitespace-only text
rejects with the error `"Invalid text"`, emits no backend call (in
particular no `speakCall` and no `cancel`), and leaves the manager state
untouched. -/
theorem speak_rejects_blank_text (st : TTSState) (text : String)
    (language : Option String) (opts : SpeakOptions) (enumerated : List Voice)
    (hs : st.synthesisAvailable = true) (ht : jsTrimEmpty text = true) :
    speak st text language opts enumerated =
      (st, [], Except.error "Invalid text") := by
  unfold speak
  rw [hs]
  simp [ht]

/-- C7 witness: whitespace-only text in the idle state. -/
theorem speak_rejects_blank_text_witness :
    speak stIdle "  " none ⟨none, none, none⟩ [] =
      (stIdle, [], Except.error "Invalid text") :=
  speak_rejects_blank_text stIdle "  " none ⟨none, none, none⟩ [] (by decide) (by decide)

/-- C8: the highlight tick interval equals
`max(50, 1000 / ((180 / 60) * rate))` milliseconds, which is
`60 / (180 * rate)` seconds (i.e. `60000 / (180 * rate)` ms) clamped,
and is never below the 50 ms minimum. -/
theorem highlight_interval_formula (rate : ℚ) (h : 0 < rate) :
    highlightIntervalMs rate = max 50 (1000 / ((180 / 60) * rate)) ∧
    highlightIntervalMs rate = max 50 (60000 / (180 * rate)) ∧
    50 ≤ highlightIntervalMs rate := by
  have e : (1000 : ℚ) / ((180 / 60) * rate) = 60000 / (180 * rate) := by
    rw [div_eq_div_iff (by positivity) (by positivity)]
    ring
  refine ⟨rfl, ?_, ?_⟩
  · simp only [highlightIntervalMs]
    rw [e]
  · exact le_max_left _ _

/-- C8 witness: at rate 1 the interval is 1000/3 ms ≥ 50 ms. -/
theorem highlight_interval_formula_witness :
    50 ≤ highlightIntervalMs 1 :=
  (highlight_interval_formula 1 (by norm_num)).2.2

/-- C10: `setLanguage` on an unconfigured code fails atomically — it
returns `false`, the whole state (current language and current voice
included) is unchanged and no language-change callback fires; a
configured code returns `true`, sets the current language and fires the
callback. -/
theorem setLanguage_invalid_atomic (st : TTSState) (language : String) :
    (lookupLang language = none → setLanguage st language = (st, false, [])) ∧
    (∀ cfg, lookupLang language = some cfg →
      (setLanguage st language).2.1 = true ∧
      (setLanguage st language).1.currentLanguage = language ∧
      (setLanguage st language).2.2 = [Event.languageChange language]) := by
  constructor
  · intro h
    unfold setLanguage
    rw [h]
  · intro cfg h
    unfold setLanguage
    rw [h]
    refine ⟨rfl, ?_, rfl⟩
    have := (selectBestVoiceSt_fields {st with currentLanguage := language}
      (some language)).2.2.2.1
    simpa using this

/-- C10 witness: the unconfigured code `"xx"` is rejected atomically. -/
theorem setLanguage_invalid_atomic_witness :
    setLanguage stIdle "xx" = (stIdle, false, []) :=
  (setLanguage_invalid_atomic stIdle "xx").1 (by decide)

lemma stop_rate (st : TTSState) : (stop st).1.rate = st.rate := (stop_fields st).1

lemma stop_pitch (st : TTSState) : (stop st).1.pitch = st.pitch := (stop_fields st).2.1

lemma stop_volume (st : TTSState) : (stop st).1.volume = st.volume := (stop_fields st).2.2.1

lemma stop_currentLanguage (st : TTSState) :
    (stop st).1.currentLanguage = st.currentLanguage := (stop_fields st).2.2.2.1

lemma setLanguage_rate (st : TTSState) (l : String) :
    (setLanguage st l).1.rate = st.rate := (setLanguage_fields st l).1

lemma setLanguage_pitch (st : TTSState) (l : String) :
    (setLanguage st l).1.pitch = st.pitch := (setLanguage_fields st l).2.1

lemma setLanguage_volume (st : TTSState) (l : String) :
    (setLanguage st l).1.volume = st.volume := (setLanguage_fields st l).2.2.1

/-- C5: a valid `speak` call leaves exactly one utterance active — the
newly constructed one — and, when an utterance was in flight, the
backend `cancel` is emitted before everything else, in particular before
the `speakCall` that submits the new utterance; when nothing was in
flight no `cancel` is emitted.  The plugin's `speakText` path enters
through `stopSpeaking`, which also tears down the whole word-highlight
state. -/
theorem speak_single_session (st : TTSState) (text : String)
    (language : Option String) (opts : SpeakOptions) (enumerated : List Voice)
    (hs : st.synthesisAvailable = true)
    (ht : jsTrimEmpty text = false)
    (hl : (lookupLang (effectiveLang text language)).isSome = true) :
    (speak st text language opts enumerated).1.isSpeakingM = true ∧
    (∃ u, (speak st text language opts enumerated).2.2 = Except.ok u ∧
      (speak st text language opts enumerated).1.currentUtterance = some u ∧
      (speak st text language opts enumerated).2.1 =
        (if st.isSpeakingM then [Event.cancel] else []) ++
        (if effectiveLang text language ≠ st.currentLanguage then
          [Event.languageChange (effectiveLang text language)] else []) ++
        [Event.speakCall u]) ∧
    (∀ p : PluginState, (stopSpeaking p st).1.highlights = [] ∧
      (stopSpeaking p st).1.words = [] ∧ (stopSpeaking p st).1.wordIndex = 0) := by
  obtain ⟨cfg, hcfg⟩ := Option.isSome_iff_exists.mp hl
  by_cases heq : effectiveLang text language = st.currentLanguage
  · by_cases hsp : st.isSpeakingM <;>
      simp [speak, stop, setLanguage, stopSpeaking, clearTTSHighlights,
        hs, ht, hsp, ← heq, hcfg]
  · by_cases hsp : st.isSpeakingM <;>
      simp [speak, stop, setLanguage, stopSpeaking, clearTTSHighlights,
        hs, ht, hsp, heq, hcfg]

/-- C5 witness: a concrete call over a busy manager cancels first and
ends with exactly the new utterance active. -/
theorem speak_single_session_witness :
    (speak stBusy "hello" (some "en") ⟨none, none, none⟩ []).1.isSpeakingM = true :=
  (speak_single_session stBusy "hello" (some "en") ⟨none, none, none⟩ []
    (by decide) (by decide) (by decide)).1

lemma speak_ok_params (st : TTSState) (text : String) (language : Option String)
    (enumerated : List Voice) (u : Utterance)
    (h : (speak st text language ⟨none, none, none⟩ enumerated).2.2 = Except.ok u) :
    u.rate = st.rate ∧ u.pitch = st.pitch ∧ u.volume = st.volume := by
  unfold speak at h
  by_cases hs : st.synthesisAvailable = false
  · rw [if_pos hs] at h
    simp at h
  rw [if_neg hs] at h
  by_cases ht : jsTrimEmpty text = true
  · rw [if_pos ht] at h
    simp at h
  rw [if_neg ht] at h
  cases hcfg : lookupLang (effectiveLang text language) with
  | none =>
    simp only [hcfg] at h
    simp at h
  | some cfg =>
    simp only [hcfg] at h
    simp only [Except.ok.injEq] at h
    split at h <;>
      [skip; split at h] <;>
      · rw [← h]
        split <;>
          simp [jsOr, setLanguage_rate, setLanguage_pitch, setLanguage_volume,
            stop_rate, stop_pitch, stop_volume]

/-- C9 counterexample: the claim says the rate carried by a playback
request always lies in [0.5, 2.0]; but per-call options bypass the
clamping setters — `speak` with `options.rate = 3` submits an utterance
whose rate is 3. -/
theorem playback_range_counterexample :
    (speak stIdle "hello" (some "en") ⟨some 3, none, none⟩ []).2.2 =
      Except.ok ⟨"hello", "en-US", 3, 1, 1, none⟩ ∧
    ¬((⟨"hello", "en-US", 3, 1, 1, none⟩ : Utterance).rate ≤ 2) := by
  exact ⟨by decide, by decide⟩

/-- C9 (amended): `setRate`, `setPitch` and `setVolume` store the
clamped values `max(0.5, min(2, x))`, `max(0, min(2, x))` and
`max(0, min(1, x))`, so any utterance built by `speak` without per-call
option overrides carries `rate ∈ [0.5, 2]`, `pitch ∈ [0, 2]` and
`volume ∈ [0, 1]`; per-call options are passed through unclamped. -/
theorem playback_ranges_amended (st : TTSState) (x y z : ℚ)
    (text : String) (language : Option String) (enumerated : List Voice)
    (u : Utterance)
    (h : (speak (setVolume (setPitch (setRate st x) y) z) text language
        ⟨none, none, none⟩ enumerated).2.2 = Except.ok u) :
    ((setRate st x).rate = max 0.5 (min 2 x) ∧
     (setPitch st y).pitch = max 0 (min 2 y) ∧
     (setVolume st z).volume = max 0 (min 1 z)) ∧
    (0.5 ≤ u.rate ∧ u.rate ≤ 2) ∧
    (0 ≤ u.pitch ∧ u.pitch ≤ 2) ∧
    (0 ≤ u.volume ∧ u.volume ≤ 1) := by
  obtain ⟨hr, hp, hv⟩ := speak_ok_params _ _ _ _ _ h
  have h05 : (mkRat 1 2 : ℚ) = 0.5 := by norm_num
  have er : u.rate = max 0.5 (min 2 x) := by rw [hr]; simp [setRate, setPitch, setVolume, h05]
  have ep : u.pitch = max 0 (min 2 y) := by rw [hp]; rfl
  have ev : u.volume = max 0 (min 1 z) := by rw [hv]; rfl
  refine ⟨⟨by simp [setRate, h05], rfl, rfl⟩, ⟨?_, ?_⟩, ⟨?_, ?_⟩, ⟨?_, ?_⟩⟩
  · rw [er]; exact le_max_left _ _
  · rw [er]; exact max_le (by norm_num) (min_le_left _ _)
  · rw [ep]; exact le_max_left _ _
  · rw [ep]; exact max_le (by norm_num) (min_le_left _ _)
  · rw [ev]; exact le_max_left _ _
  · rw [ev]; exact max_le (by norm_num) (min_le_left _ _)

/-- C9 (amended) witness: out-of-range settings 5, -1, 7 are clamped to
2, 0, 1 and carried as such by the utterance. -/
theorem playback_ranges_amended_witness :
    0.5 ≤ (⟨"hello", "en-US", 2, 0, 1, none⟩ : Utterance).rate :=
  (playback_ranges_amended stIdle 5 (-1) 7 "hello" (some "en") []
    ⟨"hello", "en-US", 2, 0, 1, none⟩ (by decide)).2.1.1
